import Mathlib

/-!
Verification of `data_plot.py` (spring-mass-damper result plotter).

The script has two phases:
* lines 13-24: read `result.csv` with `csv.reader`, parse every token of
  every row with `float(v)`, and append the first six parsed values of each
  row to the six accumulator lists `t, r, y, u, limit_under, limit_upper`;
* lines 27-49: build a two-panel matplotlib figure from those lists.

The embedding models a CSV file as a `List (List String)` (the rows produced
by `csv.reader`, each row a list of raw field strings), parsed floating-point
values as exact symbolic values (`PyFloat`: a rational, `inf`, `-inf` or
`nan`), and a raised Python exception as an `Except.error` carrying the
record/token position at which the exception is raised.
-/

deriving instance DecidableEq for Except

/-- Symbolic model of a Python 64-bit float value: finite values are kept as
exact rationals (the claims only exercise exactly representable decimals),
and the non-finite values `inf`, `-inf`, `nan` are their own constructors. -/
inductive PyFloat where
  | finite (q : ℚ)
  | inf
  | negInf
  | nan
deriving DecidableEq

instance : Inhabited PyFloat := ⟨PyFloat.nan⟩

/-- Negation of a parsed value, applied when the token carries a `-` sign.
`float("-nan")` is still a NaN. -/
def PyFloat.neg : PyFloat → PyFloat
  | PyFloat.finite q => PyFloat.finite (-q)
  | PyFloat.inf => PyFloat.negInf
  | PyFloat.negInf => PyFloat.inf
  | PyFloat.nan => PyFloat.nan

/-- ASCII whitespace stripped by Python's `float` before parsing
(space, tab, newline, carriage return, vertical tab, form feed). -/
def isPyWs (c : Char) : Bool :=
  c = ' ' || c = '\t' || c = '\n' || c = '\r' || c = Char.ofNat 11 || c = Char.ofNat 12

/-- Split a character list at every occurrence of `c` (Python-style split:
`"a.b" -> [a, b]`, `"." -> [[], []]`, `"" -> [[]]`). -/
def splitOnChar (c : Char) : List Char → List (List Char)
  | [] => [[]]
  | a :: rest =>
    let r := splitOnChar c rest
    if a = c then [] :: r
    else
      match r with
      | [] => [[a]]
      | h :: tl => (a :: h) :: tl

def digitVal (c : Char) : ℕ := c.toNat - 48

def natOfDigits (l : List Char) : ℕ :=
  l.foldl (fun a c => 10 * a + digitVal c) 0

def allDigits (l : List Char) : Bool := l.all Char.isDigit

/-- Mantissa part of a float literal: `digits`, `digits.digits?`, or
`.digits`, evaluated exactly as a rational. -/
def parseMantissaPart (l : List Char) : Option ℚ :=
  match splitOnChar '.' l with
  | [ds] => if ds ≠ [] ∧ allDigits ds then some ((natOfDigits ds : ℚ)) else none
  | [ip, fp] =>
    if (ip ≠ [] ∨ fp ≠ []) ∧ allDigits ip ∧ allDigits fp then
      some ((natOfDigits ip : ℚ) + (natOfDigits fp : ℚ) / ((10 : ℚ) ^ fp.length))
    else none
  | _ => none

/-- Exponent part of a float literal: optional sign then digits. -/
def parseExpPart (l : List Char) : Option ℤ :=
  match l with
  | '+' :: ds => if ds ≠ [] ∧ allDigits ds then some ((natOfDigits ds : ℤ)) else none
  | '-' :: ds => if ds ≠ [] ∧ allDigits ds then some (-(natOfDigits ds : ℤ)) else none
  | ds => if ds ≠ [] ∧ allDigits ds then some ((natOfDigits ds : ℤ)) else none

/-- Scale a mantissa by a (possibly negative) power of ten, using only
natural-number exponents. -/
def applyExp (q : ℚ) (e : ℤ) : ℚ :=
  if 0 ≤ e then q * (10 : ℚ) ^ e.toNat else q / (10 : ℚ) ^ (-e).toNat

/-- Unsigned body of a float token (already lower-cased, whitespace-stripped,
sign removed): `inf`/`infinity`, `nan`, or a decimal with optional exponent. -/
def parseUnsignedFloat (l : List Char) : Option PyFloat :=
  if l = ['i', 'n', 'f'] ∨ l = ['i', 'n', 'f', 'i', 'n', 'i', 't', 'y'] then
    some PyFloat.inf
  else if l = ['n', 'a', 'n'] then some PyFloat.nan
  else
    match splitOnChar 'e' l with
    | [m] => (parseMantissaPart m).map PyFloat.finite
    | [m, ex] =>
      match parseMantissaPart m, parseExpPart ex with
      | some q, some e => some (PyFloat.finite (applyExp q e))
      | _, _ => none
    | _ => none

/-- Modelled from the spec: the token-to-64-bit-float conversion of §4.1
("parse every token to a 64-bit float") is Python's builtin `float(v)`
(line 17 of `data_plot.py`), whose implementation is not part of this
repository.  This model follows the builtin's documented grammar: strip
surrounding ASCII whitespace, optional single sign, then case-insensitive
`inf`/`infinity`/`nan` or a decimal literal with optional fraction and
optional decimal exponent.  Finite values are exact rationals (the model
idealizes IEEE-754 rounding away; every input exercised by a claim is
exactly representable).  Digit-group underscores are omitted from the model;
no claim exercises them. -/
def pythonFloat (s : String) : Option PyFloat :=
  let l := ((s.data.dropWhile isPyWs).reverse.dropWhile isPyWs).reverse
  let l := l.map Char.toLower
  match l with
  | '+' :: rest => parseUnsignedFloat rest
  | '-' :: rest => (parseUnsignedFloat rest).map PyFloat.neg
  | _ => parseUnsignedFloat l

/-- The six parallel accumulator lists of lines 6-11 of `data_plot.py`. -/
structure SampleTable where
  t : List PyFloat
  r : List PyFloat
  y : List PyFloat
  u : List PyFloat
  limit_under : List PyFloat
  limit_upper : List PyFloat
deriving DecidableEq

/-- The empty table (the initial state of the six accumulator lists). -/
def SampleTable.empty : SampleTable := ⟨[], [], [], [], [], []⟩

/-- Column access in the fixed positional order of the file schema:
0 ↦ `t`, 1 ↦ `r`, 2 ↦ `y`, 3 ↦ `u`, 4 ↦ `limit_under`, 5 ↦ `limit_upper`. -/
def SampleTable.col (tbl : SampleTable) : ℕ → List PyFloat
  | 0 => tbl.t
  | 1 => tbl.r
  | 2 => tbl.y
  | 3 => tbl.u
  | 4 => tbl.limit_under
  | _ => tbl.limit_upper

/-- Exceptions the load loop of lines 14-24 can raise, tagged with the
position at which they are raised: `parseError k j` is the `ValueError`
raised by `float` on token `j` of record `k` (line 17), `malformedRecord k`
is the `IndexError` raised by `nums[i]` on a record `k` that has fewer than
six fields (lines 19-24). -/
inductive LoadError where
  | parseError (record : ℕ) (token : ℕ)
  | malformedRecord (record : ℕ)
deriving DecidableEq

/-- Line 17, `nums = [float(v) for v in row]`: parse the tokens left to
right; the first unparseable token raises, identified by its position. -/
def parseTokens : ℕ → List String → Except ℕ (List PyFloat)
  | _, [] => Except.ok []
  | j, v :: rest =>
    match pythonFloat v with
    | none => Except.error j
    | some x =>
      match parseTokens (j + 1) rest with
      | Except.error i => Except.error i
      | Except.ok xs => Except.ok (x :: xs)

/-- Lines 19-24: append `nums[0]`..`nums[5]` to the six lists one at a
time, exactly in source order; the first missing index raises `IndexError`
on a record with fewer than six fields (any appends made before the raise
are local to the failed load and are discarded with it). -/
def appendRecord (k : ℕ) (st : SampleTable) (nums : List PyFloat) :
    Except LoadError SampleTable :=
  match nums.get? 0 with
    | none => Except.error (LoadError.malformedRecord k)
    | some n0 =>
      let st := { st with t := st.t ++ [n0] }
      match nums.get? 1 with
      | none => Except.error (LoadError.malformedRecord k)
      | some n1 =>
        let st := { st with r := st.r ++ [n1] }
        match nums.get? 2 with
        | none => Except.error (LoadError.malformedRecord k)
        | some n2 =>
          let st := { st with y := st.y ++ [n2] }
          match nums.get? 3 with
          | none => Except.error (LoadError.malformedRecord k)
          | some n3 =>
            let st := { st with u := st.u ++ [n3] }
            match nums.get? 4 with
            | none => Except.error (LoadError.malformedRecord k)
            | some n4 =>
              let st := { st with limit_under := st.limit_under ++ [n4] }
              match nums.get? 5 with
              | none => Except.error (LoadError.malformedRecord k)
              | some n5 =>
                Except.ok { st with limit_upper := st.limit_upper ++ [n5] }

/-- Lines 17-24 for one record `row` at 0-based index `k`: parse all the
tokens (line 17), then append the first six parsed values (lines 19-24). -/
def loadRecord (k : ℕ) (st : SampleTable) (row : List String) :
    Except LoadError SampleTable :=
  match parseTokens 0 row with
  | Except.error j => Except.error (LoadError.parseError k j)
  | Except.ok nums => appendRecord k st nums

/-- The `for row in reader` loop of lines 16-24, processing records in file
order; an exception aborts the whole loop. -/
def loadAux : ℕ → SampleTable → List (List String) → Except LoadError SampleTable
  | _, st, [] => Except.ok st
  | k, st, row :: rest =>
    match loadRecord k st row with
    | Except.error e => Except.error e
    | Except.ok st1 => loadAux (k + 1) st1 rest

/-- The whole load phase (lines 13-24), on the rows delivered by
`csv.reader`: starting from six empty lists, process every record in file
order; on an uncaught exception nothing is returned to the rest of the
program. -/
def load (rows : List (List String)) : Except LoadError SampleTable :=
  loadAux 0 SampleTable.empty rows

/-- One plotted line, as configured by an `ax.step(x, y, ...)` call:
the data, the keyword styling, and the step mode.  `matplotlib.axes.Axes.step`
defaults `linestyle` to solid and `where` to `"pre"`; the script never
overrides `where`. -/
structure Line where
  xs : List PyFloat
  ys : List PyFloat
  color : String
  linestyle : String
  label : Option String
  stepMode : String
deriving DecidableEq

instance : Inhabited Line := ⟨⟨[], [], "", "", none, ""⟩⟩

/-- One subplot: its lines in draw order and its axis/legend configuration. -/
structure Panel where
  lines : List Line
  xlim : PyFloat × PyFloat
  xlabel : Option String
  ylabel : Option String
  tickLabelSize : ℕ
  legendFontSize : ℕ
  legendLoc : String
deriving DecidableEq

/-- The figure built by lines 28-47: size, suptitle, and the two stacked
panels `ax1` (subplot 211) and `ax2` (subplot 212). -/
structure Figure where
  figsize : ℕ × ℕ
  suptitle : String
  suptitleFontSize : ℕ
  ax1 : Panel
  ax2 : Panel
deriving DecidableEq

/-- Exceptions the render phase can raise: `dimensionMismatch` is the
`ValueError` matplotlib raises when an `ax.step` call receives `x` and `y`
of different lengths; `emptyDataset` is the `IndexError` raised by `t[0]`
in `ax1.set_xlim(t[0], t[-1])` (line 34), which happens exactly when the
table is empty. -/
inductive RenderError where
  | dimensionMismatch
  | emptyDataset
deriving DecidableEq

/-- The render phase, lines 28-47 of `data_plot.py`, in source order:
build the two `ax1.step` lines (32-33), clamp `ax1` to `[t[0], t[-1]]`
(34, raising on an empty table), label and finish panel A (35-37), build
the three `ax2.step` lines (40-42), clamp `ax2` (43), and finish panel B
(44-47).  The result is the composed figure that `plt.show()` would
display; on an exception no figure is shown. -/
def render (tbl : SampleTable) : Except RenderError Figure :=
  if tbl.r.length ≠ tbl.t.length then Except.error RenderError.dimensionMismatch
  else if tbl.y.length ≠ tbl.t.length then Except.error RenderError.dimensionMismatch
  else
    match tbl.t with
    | [] => Except.error RenderError.emptyDataset
    | t0 :: rest =>
      let tlast := (t0 :: rest).getLastD t0
      let ax1 : Panel :=
        { lines :=
            [{ xs := tbl.t, ys := tbl.r, color := "royalblue", linestyle := "--",
               label := some "Set-point", stepMode := "pre" },
             { xs := tbl.t, ys := tbl.y, color := "limegreen", linestyle := "-",
               label := some "Plant output", stepMode := "pre" }],
          xlim := (t0, tlast), xlabel := none, ylabel := some "Displacement [m]",
          tickLabelSize := 13, legendFontSize := 15, legendLoc := "upper left" }
      if tbl.limit_upper.length ≠ tbl.t.length then Except.error RenderError.dimensionMismatch
      else if tbl.limit_under.length ≠ tbl.t.length then Except.error RenderError.dimensionMismatch
      else if tbl.u.length ≠ tbl.t.length then Except.error RenderError.dimensionMismatch
      else
        let ax2 : Panel :=
          { lines :=
              [{ xs := tbl.t, ys := tbl.limit_upper, color := "red", linestyle := "--",
                 label := some "Limit", stepMode := "pre" },
               { xs := tbl.t, ys := tbl.limit_under, color := "red", linestyle := "--",
                 label := none, stepMode := "pre" },
               { xs := tbl.t, ys := tbl.u, color := "orange", linestyle := "-",
                 label := some "Control input", stepMode := "pre" }],
            xlim := (t0, tlast), xlabel := some "Time [s]", ylabel := some "Force [N]",
            tickLabelSize := 13, legendFontSize := 15, legendLoc := "upper left" }
        Except.ok
          { figsize := (10, 7), suptitle := "Spring-Mass-Damper System",
            suptitleFontSize := 20, ax1 := ax1, ax2 := ax2 }

/-- The legend entries of a panel: matplotlib's `ax.legend()` lists the
labelled lines, in draw order; unlabelled lines get no entry. -/
def legendEntries (p : Panel) : List String :=
  p.lines.filterMap Line.label

/-- Finite projection of a parsed value. -/
def finiteQ : PyFloat → Option ℚ
  | PyFloat.finite q => some q
  | _ => none

/-- All-finite projection of a data list (the concrete tables the claims
sample are all finite). -/
def finiteVals (l : List PyFloat) : Option (List ℚ) := l.mapM finiteQ

/-- Value of a pre-step curve at abscissa `x`, given sorted sample times:
the least `i` with `x ≤ xs[i]` yields `ys[i]`. -/
def stepPreAtAux : List ℚ → List ℚ → ℚ → Option ℚ
  | x0 :: xtl, y0 :: ytl, x => if x ≤ x0 then some y0 else stepPreAtAux xtl ytl x
  | _, _, _ => none

/-- Modelled from the spec: the rendered y-value of a step curve at a given
x (the spec's "sampling the rendered line's y-value"); the plotting
primitive (`matplotlib.axes.Axes.step`) is not part of this repository.
Per matplotlib's documentation of its default `where="pre"`, the y value is
continued constantly to the left from every x position: the interval
`(x[i-1], x[i]]` has the value `y[i]`, and the curve is not drawn before
`x[0]` or after `x[N-1]`. -/
def stepPreAt (xs ys : List ℚ) (x : ℚ) : Option ℚ :=
  match xs with
  | [] => none
  | x0 :: _ => if x < x0 then none else stepPreAtAux xs ys x

/-- Sample a rendered line's y-value at abscissa `x` (finite data only).
Every line the script draws uses the default pre-step mode. -/
def lineValueAt (ln : Line) (x : ℚ) : Option ℚ :=
  if ln.stepMode = "pre" then
    match finiteVals ln.xs, finiteVals ln.ys with
    | some xs, some ys => stepPreAt xs ys x
    | _, _ => none
  else none

/-- A record all of whose tokens parse and that has at least six fields:
exactly the records the load loop gets through without raising. -/
def validRow (row : List String) : Prop :=
  6 ≤ row.length ∧ ∀ v ∈ row, (pythonFloat v).isSome

instance (row : List String) : Decidable (validRow row) := by
  unfold validRow; infer_instance

/-- The parsed value at field `j` of a record (junk default off the end). -/
def parsedAt (row : List String) (j : ℕ) : PyFloat :=
  (pythonFloat (row.getD j "")).getD default

/-- All six columns of the table a fully valid file loads to. -/
def loadedTable (rows : List (List String)) : SampleTable :=
  { t := rows.map (fun ro => parsedAt ro 0),
    r := rows.map (fun ro => parsedAt ro 1),
    y := rows.map (fun ro => parsedAt ro 2),
    u := rows.map (fun ro => parsedAt ro 3),
    limit_under := rows.map (fun ro => parsedAt ro 4),
    limit_upper := rows.map (fun ro => parsedAt ro 5) }

/-- A table all of whose six columns have the same length (the §3 invariant
of a well-formed Sample Table). -/
def SampleTable.uniform (tbl : SampleTable) : Prop :=
  tbl.r.length = tbl.t.length ∧ tbl.y.length = tbl.t.length ∧
  tbl.u.length = tbl.t.length ∧ tbl.limit_under.length = tbl.t.length ∧
  tbl.limit_upper.length = tbl.t.length

instance (tbl : SampleTable) : Decidable tbl.uniform := by
  unfold SampleTable.uniform; infer_instance

/-- The two-record file used to exercise round-trip loading. -/
def sampleRowsA : List (List String) :=
  [["0", "1", "0", "0", "-5", "5"], ["1", "1", "0.5", "2", "-5", "5"]]

/-- A file whose second record has only two fields. -/
def shortRows : List (List String) :=
  [["0", "1", "0", "0", "-5", "5"], ["1", "1"]]

/-- A file whose second record has an unparseable second token. -/
def badTokenRows : List (List String) :=
  [["0", "1", "0", "0", "-5", "5"], ["1", "oops", "0.5", "2", "-5", "5"]]

/-- A file whose single record has six numeric fields and a seventh,
unparseable, field. -/
def extraBadRows : List (List String) := [["0", "1", "2", "3", "4", "5", "x"]]

/-- A valid file whose single record has a seventh, numeric, field. -/
def extraOkRows : List (List String) := [["0", "1", "0", "0", "-5", "5", "99"]]

/-- A file of tokens only Python's lenient float parsing accepts. -/
def nonFiniteRows : List (List String) :=
  [["nan", " inf", "-inf", "1e3", " 2.5 ", "7"]]

/-- The three-record Sample Table of the spec's axis-clamp scenario:
records (0,1,0,0,-5,5), (1,1,0.5,2,-5,5), (2,1,1,2,-5,5). -/
def exTable : SampleTable :=
  { t := [PyFloat.finite 0, PyFloat.finite 1, PyFloat.finite 2],
    r := [PyFloat.finite 1, PyFloat.finite 1, PyFloat.finite 1],
    y := [PyFloat.finite 0, PyFloat.finite (1 / 2), PyFloat.finite 1],
    u := [PyFloat.finite 0, PyFloat.finite 2, PyFloat.finite 2],
    limit_under := [PyFloat.finite (-5), PyFloat.finite (-5), PyFloat.finite (-5)],
    limit_upper := [PyFloat.finite 5, PyFloat.finite 5, PyFloat.finite 5] }

lemma parseTokens_ok : ∀ (row : List String) (j : ℕ),
    (∀ v ∈ row, (pythonFloat v).isSome) →
    parseTokens j row =
      Except.ok (row.map (fun v => (pythonFloat v).getD default))
  | [], _, _ => rfl
  | v :: rest, j, h => by
    obtain ⟨x, hx⟩ :=
      Option.isSome_iff_exists.mp (h v (List.mem_cons_self v rest))
    have hrest :=
      parseTokens_ok rest (j + 1) (fun w hw => h w (List.mem_cons_of_mem v hw))
    unfold parseTokens
    rw [hx, hrest]
    simp [hx]

lemma parseTokens_ok_inv : ∀ (row : List String) (j : ℕ) (nums : List PyFloat),
    parseTokens j row = Except.ok nums →
    (∀ v ∈ row, (pythonFloat v).isSome) ∧ nums.length = row.length
  | [], _, nums, h => by
    simp [parseTokens] at h
    subst h
    simp
  | v :: rest, j, nums, h => by
    unfold parseTokens at h
    cases hv : pythonFloat v with
    | none => rw [hv] at h; exact absurd h (by simp)
    | some x =>
      rw [hv] at h
      cases hr : parseTokens (j + 1) rest with
      | error i => rw [hr] at h; exact absurd h (by simp)
      | ok xs =>
        rw [hr] at h
        obtain ⟨hall, hlen⟩ := parseTokens_ok_inv rest (j + 1) xs hr
        obtain rfl : nums = x :: xs := by simpa using h.symm
        refine ⟨?_, by simp [hlen]⟩
        intro w hw
        rcases List.mem_cons.mp hw with rfl | hw
        · simp [hv]
        · exact hall w hw

lemma parseTokens_err : ∀ (row : List String) (j0 j : ℕ),
    j < row.length →
    pythonFloat (row.getD j "") = none →
    (∀ i, i < j → (pythonFloat (row.getD i "")).isSome) →
    parseTokens j0 row = Except.error (j0 + j)
  | [], _, j, hj, _, _ => by simp at hj
  | v :: rest, j0, 0, _, hbad, _ => by
    unfold parseTokens
    rw [show (v :: rest).getD 0 "" = v from rfl] at hbad
    rw [hbad]
    simp
  | v :: rest, j0, j + 1, hj, hbad, hgood => by
    obtain ⟨x, hx⟩ :=
      Option.isSome_iff_exists.mp (hgood 0 (Nat.succ_pos j))
    rw [show (v :: rest).getD 0 "" = v from rfl] at hx
    unfold parseTokens
    rw [hx, parseTokens_err rest (j0 + 1) j (by simpa using hj)
      (by simpa using hbad) (fun i hi => by simpa using hgood (i + 1) (by omega))]
    simp
    omega

lemma appendRecord_cons6 (k : ℕ) (st : SampleTable)
    (n0 n1 n2 n3 n4 n5 : PyFloat) (rest : List PyFloat) :
    appendRecord k st (n0 :: n1 :: n2 :: n3 :: n4 :: n5 :: rest) =
      Except.ok
        { t := st.t ++ [n0], r := st.r ++ [n1], y := st.y ++ [n2],
          u := st.u ++ [n3], limit_under := st.limit_under ++ [n4],
          limit_upper := st.limit_upper ++ [n5] } := rfl

lemma appendRecord_short (k : ℕ) (st : SampleTable) (nums : List PyFloat)
    (hlen : nums.length < 6) :
    appendRecord k st nums = Except.error (LoadError.malformedRecord k) := by
  rcases nums with _ | ⟨n0, _ | ⟨n1, _ | ⟨n2, _ | ⟨n3, _ | ⟨n4, _ | ⟨n5, rest⟩⟩⟩⟩⟩⟩
  · rfl
  · rfl
  · rfl
  · rfl
  · rfl
  · rfl
  · simp at hlen; omega

lemma loadRecord_ok (k : ℕ) (st : SampleTable) (row : List String)
    (h : validRow row) :
    loadRecord k st row = Except.ok
      { t := st.t ++ [parsedAt row 0], r := st.r ++ [parsedAt row 1],
        y := st.y ++ [parsedAt row 2], u := st.u ++ [parsedAt row 3],
        limit_under := st.limit_under ++ [parsedAt row 4],
        limit_upper := st.limit_upper ++ [parsedAt row 5] } := by
  obtain ⟨hlen, hall⟩ := h
  unfold loadRecord
  rw [parseTokens_ok row 0 hall]
  rcases row with _ | ⟨a0, _ | ⟨a1, _ | ⟨a2, _ | ⟨a3, _ | ⟨a4, _ | ⟨a5, rest⟩⟩⟩⟩⟩⟩
  · simp at hlen
  · simp at hlen
  · simp at hlen
  · simp at hlen
  · simp at hlen
  · simp at hlen
  · rfl

lemma loadRecord_short (k : ℕ) (st : SampleTable) (row : List String)
    (hall : ∀ v ∈ row, (pythonFloat v).isSome) (hlen : row.length < 6) :
    loadRecord k st row = Except.error (LoadError.malformedRecord k) := by
  unfold loadRecord
  rw [parseTokens_ok row 0 hall]
  exact appendRecord_short k st _ (by simpa using hlen)

lemma loadRecord_parse_err (k : ℕ) (st : SampleTable) (row : List String)
    (j : ℕ) (hj : j < row.length)
    (hbad : pythonFloat (row.getD j "") = none)
    (hgood : ∀ i, i < j → (pythonFloat (row.getD i "")).isSome) :
    loadRecord k st row = Except.error (LoadError.parseError k j) := by
  unfold loadRecord
  rw [parseTokens_err row 0 j hj hbad hgood, Nat.zero_add]

lemma loadRecord_ok_validRow (k : ℕ) (st : SampleTable) (row : List String)
    (st1 : SampleTable) (h : loadRecord k st row = Except.ok st1) :
    validRow row := by
  cases hp : parseTokens 0 row with
  | error j =>
    have h2 : loadRecord k st row = Except.error (LoadError.parseError k j) := by
      unfold loadRecord; rw [hp]
    rw [h2] at h
    exact absurd h (by simp)
  | ok nums =>
    obtain ⟨hall, hlen⟩ := parseTokens_ok_inv row 0 nums hp
    have h2 : appendRecord k st nums = Except.ok st1 := by
      have h3 : loadRecord k st row = appendRecord k st nums := by
        unfold loadRecord; rw [hp]
      rwa [h3] at h
    refine ⟨?_, hall⟩
    rcases Nat.lt_or_ge row.length 6 with hlt | hge
    · rw [appendRecord_short k st nums (by omega)] at h2
      exact absurd h2 (by simp)
    · exact hge

lemma loadAux_cons_ok (k : ℕ) (st : SampleTable) (row : List String)
    (rest : List (List String)) (st1 : SampleTable)
    (h : loadRecord k st row = Except.ok st1) :
    loadAux k st (row :: rest) = loadAux (k + 1) st1 rest := by
  show (match loadRecord k st row with
    | Except.error e => Except.error e
    | Except.ok st1 => loadAux (k + 1) st1 rest) = loadAux (k + 1) st1 rest
  rw [h]

lemma loadAux_cons_err (k : ℕ) (st : SampleTable) (row : List String)
    (rest : List (List String)) (e : LoadError)
    (h : loadRecord k st row = Except.error e) :
    loadAux k st (row :: rest) = Except.error e := by
  show (match loadRecord k st row with
    | Except.error e => Except.error e
    | Except.ok st1 => loadAux (k + 1) st1 rest) = Except.error e
  rw [h]

lemma loadAux_ok_of_valid : ∀ (rows : List (List String)) (k : ℕ)
    (st : SampleTable), (∀ row ∈ rows, validRow row) →
    loadAux k st rows = Except.ok
      { t := st.t ++ rows.map (fun ro => parsedAt ro 0),
        r := st.r ++ rows.map (fun ro => parsedAt ro 1),
        y := st.y ++ rows.map (fun ro => parsedAt ro 2),
        u := st.u ++ rows.map (fun ro => parsedAt ro 3),
        limit_under := st.limit_under ++ rows.map (fun ro => parsedAt ro 4),
        limit_upper := st.limit_upper ++ rows.map (fun ro => parsedAt ro 5) }
  | [], k, st, _ => by simp [loadAux]
  | row :: rest, k, st, h => by
    rw [loadAux_cons_ok k st row rest _
        (loadRecord_ok k st row (h row (List.mem_cons_self row rest))),
      loadAux_ok_of_valid rest (k + 1) _
        (fun w hw => h w (List.mem_cons_of_mem row hw))]
    simp

lemma load_ok_of_valid (rows : List (List String))
    (h : ∀ row ∈ rows, validRow row) :
    load rows = Except.ok (loadedTable rows) := by
  unfold load loadedTable SampleTable.empty
  rw [loadAux_ok_of_valid rows 0 _ h]
  simp

lemma loadAux_ok_valid : ∀ (rows : List (List String)) (k : ℕ)
    (st tbl : SampleTable), loadAux k st rows = Except.ok tbl →
    ∀ row ∈ rows, validRow row
  | [], _, _, _, _ => by simp
  | row :: rest, k, st, tbl, h => by
    cases hr : loadRecord k st row with
    | error e =>
      rw [loadAux_cons_err k st row rest e hr] at h
      exact absurd h (by simp)
    | ok st1 =>
      rw [loadAux_cons_ok k st row rest st1 hr] at h
      intro w hw
      rcases List.mem_cons.mp hw with rfl | hw
      · exact loadRecord_ok_validRow k st w st1 hr
      · exact loadAux_ok_valid rest (k + 1) st1 tbl h w hw

lemma loadAux_append_ok : ∀ (a b : List (List String)) (k : ℕ)
    (st st1 : SampleTable), loadAux k st a = Except.ok st1 →
    loadAux k st (a ++ b) = loadAux (k + a.length) st1 b
  | [], b, k, st, st1, h => by
    obtain rfl : st = st1 := by simpa [loadAux] using h
    simp [loadAux]
  | row :: rest, b, k, st, st1, h => by
    cases hr : loadRecord k st row with
    | error e =>
      rw [loadAux_cons_err k st row rest e hr] at h
      exact absurd h (by simp)
    | ok st2 =>
      rw [loadAux_cons_ok k st row rest st2 hr] at h
      rw [List.cons_append, loadAux_cons_ok k st row (rest ++ b) st2 hr,
        loadAux_append_ok rest b (k + 1) st2 st1 h]
      congr 1
      simp
      omega

lemma loadedTable_col (rows : List (List String)) (j : ℕ) (hj : j < 6) :
    (loadedTable rows).col j = rows.map (fun ro => parsedAt ro j) := by
  interval_cases j <;> rfl

lemma loadedTable_col_getElem (rows : List (List String)) (i j : ℕ)
    (hi : i < rows.length) (hj : j < 6)
    (h : ∀ row ∈ rows, validRow row) :
    ((loadedTable rows).col j)[i]? = pythonFloat ((rows.getD i []).getD j "") := by
  rw [loadedTable_col rows j hj, List.getElem?_map, List.getElem?_eq_getElem hi]
  obtain ⟨hlen6, hall⟩ := h rows[i] (List.getElem_mem hi)
  have hjlen : j < rows[i].length := lt_of_lt_of_le hj hlen6
  have htokmem : rows[i].getD j "" ∈ rows[i] := by
    rw [List.getD_eq_getElem rows[i] "" hjlen]
    exact List.getElem_mem hjlen
  obtain ⟨x, hx⟩ := Option.isSome_iff_exists.mp (hall _ htokmem)
  rw [List.getD_eq_getElem?_getD] at hx
  rw [List.getD_eq_getElem rows [] hi]
  simp [parsedAt, List.getD_eq_getElem?_getD, hx]

lemma load_fail_at (rows : List (List String)) (k : ℕ) (e : LoadError)
    (hk : k < rows.length)
    (hprev : ∀ i, i < k → validRow (rows.getD i []))
    (hfail : ∀ st : SampleTable, loadRecord k st (rows.getD k []) = Except.error e) :
    load rows = Except.error e := by
  have hprefix : ∀ row ∈ rows.take k, validRow row := by
    intro row hrow
    obtain ⟨i, hi, rfl⟩ := List.mem_iff_getElem.mp hrow
    have hik : i < k := by
      rw [List.length_take] at hi
      omega
    have hil : i < rows.length := by
      rw [List.length_take] at hi
      omega
    rw [List.getElem_take, ← List.getD_eq_getElem rows [] hil]
    exact hprev i hik
  have hpre := loadAux_ok_of_valid (rows.take k) 0 SampleTable.empty hprefix
  have hsplit := loadAux_append_ok (rows.take k) (rows.drop k) 0 SampleTable.empty _ hpre
  rw [List.take_append_drop] at hsplit
  have hlen : (rows.take k).length = k := by
    rw [List.length_take]
    exact Nat.min_eq_left (Nat.le_of_lt hk)
  rw [hlen, Nat.zero_add] at hsplit
  have hdrop : rows.drop k = rows.getD k [] :: rows.drop (k + 1) := by
    rw [List.drop_eq_getElem_cons hk, List.getD_eq_getElem rows [] hk]
  rw [hdrop] at hsplit
  unfold load
  rw [hsplit]
  exact loadAux_cons_err k _ _ _ e (hfail _)

/-- C1: for every valid input file of N records each containing at least six
numeric fields, `load` returns six sequences each of length N, and for every
index i the element at index i of each sequence equals the parse of the
corresponding field of record i — row i of the source maps to index i of
every sequence with no sorting, deduplication, or reordering. -/
theorem load_roundtrip_alignment (rows : List (List String))
    (h : ∀ row ∈ rows, validRow row) :
    ∃ tbl, load rows = Except.ok tbl ∧
      (∀ j, j < 6 → (tbl.col j).length = rows.length) ∧
      ∀ i j, i < rows.length → j < 6 →
        (tbl.col j)[i]? = pythonFloat ((rows.getD i []).getD j "") := by
  refine ⟨loadedTable rows, load_ok_of_valid rows h, ?_, ?_⟩
  · intro j hj
    rw [loadedTable_col rows j hj]
    simp
  · intro i j hi hj
    exact loadedTable_col_getElem rows i j hi hj h

/-- Witness for C1 on a concrete two-record file. -/
theorem load_roundtrip_alignment_witness :
    (∀ row ∈ sampleRowsA, validRow row) ∧
    (∃ tbl, load sampleRowsA = Except.ok tbl ∧
      (∀ j, j < 6 → (tbl.col j).length = sampleRowsA.length) ∧
      ∀ i j, i < sampleRowsA.length → j < 6 →
        (tbl.col j)[i]? = pythonFloat ((sampleRowsA.getD i []).getD j "")) :=
  ⟨by decide, load_roundtrip_alignment sampleRowsA (by decide)⟩

/-- C4: for every input file whose record k (0-based) is the first failing
record and has fewer than 6 tokens (all of them parseable, so that the
record's own token parsing does not raise first), `load` fails with the
malformed-record error identifying the 0-based index k, and the whole load
aborts regardless of what follows record k. -/
theorem load_short_record (rows : List (List String)) (k : ℕ)
    (hk : k < rows.length)
    (hprev : ∀ i, i < k → validRow (rows.getD i []))
    (hshort : (rows.getD k []).length < 6)
    (htok : ∀ v ∈ rows.getD k [], (pythonFloat v).isSome) :
    load rows = Except.error (LoadError.malformedRecord k) := by
  exact load_fail_at rows k _ hk hprev
    (fun st => loadRecord_short k st _ htok hshort)

/-- Witness for C4 on a file whose second record has two fields. -/
theorem load_short_record_witness :
    (1 < shortRows.length ∧ (∀ i, i < 1 → validRow (shortRows.getD i [])) ∧
      (shortRows.getD 1 []).length < 6 ∧
      ∀ v ∈ shortRows.getD 1 [], (pythonFloat v).isSome) ∧
    load shortRows = Except.error (LoadError.malformedRecord 1) :=
  ⟨⟨by decide, by decide, by decide, by decide⟩,
    load_short_record shortRows 1 (by decide) (by decide) (by decide) (by decide)⟩

/-- C5: for every input file whose record k is the first failing record and
whose first unparseable token sits at position j, `load` fails with the
parse error identifying both the record index k and the token position j,
and the load aborts. -/
theorem load_bad_token (rows : List (List String)) (k j : ℕ)
    (hk : k < rows.length)
    (hprev : ∀ i, i < k → validRow (rows.getD i []))
    (hj : j < (rows.getD k []).length)
    (hbad : pythonFloat ((rows.getD k []).getD j "") = none)
    (hgood : ∀ i, i < j → (pythonFloat ((rows.getD k []).getD i "")).isSome) :
    load rows = Except.error (LoadError.parseError k j) := by
  exact load_fail_at rows k _ hk hprev
    (fun st => loadRecord_parse_err k st _ j hj hbad hgood)

/-- Witness for C5 on a file whose second record has a bad second token. -/
theorem load_bad_token_witness :
    (1 < badTokenRows.length ∧ (∀ i, i < 1 → validRow (badTokenRows.getD i [])) ∧
      1 < (badTokenRows.getD 1 []).length ∧
      pythonFloat ((badTokenRows.getD 1 []).getD 1 "") = none ∧
      ∀ i, i < 1 → (pythonFloat ((badTokenRows.getD 1 []).getD i "")).isSome) ∧
    load badTokenRows = Except.error (LoadError.parseError 1 1) :=
  ⟨⟨by decide, by decide, by decide, by decide, by decide⟩,
    load_bad_token badTokenRows 1 1 (by decide) (by decide) (by decide)
      (by decide) (by decide)⟩

/-- C6: the load is atomic — for every input file it either returns a fully
populated table, all six of whose sequences have exactly one element per
record, or it fails with an error and no table at all is returned to the
caller; no partially populated table is ever observable. -/
theorem load_atomic (rows : List (List String)) :
    (∃ tbl, load rows = Except.ok tbl ∧
      ∀ j, j < 6 → (tbl.col j).length = rows.length) ∨
    ∃ e, load rows = Except.error e := by
  cases h : load rows with
  | error e => exact Or.inr ⟨e, rfl⟩
  | ok tbl =>
    refine Or.inl ⟨tbl, rfl, ?_⟩
    have hvalid := loadAux_ok_valid rows 0 SampleTable.empty tbl h
    have h2 := load_ok_of_valid rows hvalid
    rw [h] at h2
    obtain rfl : tbl = loadedTable rows := by simpa using h2
    intro j hj
    rw [loadedTable_col rows j hj]
    simp

/-- Counterexample to C7 as stated: a file whose single record has at least
six fields but whose seventh field is unparseable makes `load` fail (the
comprehension on line 17 parses every token of the row, not only the first
six), rather than ignoring the extra field. -/
theorem extra_field_failure :
    (∀ row ∈ extraBadRows, 6 ≤ row.length) ∧
    load extraBadRows = Except.error (LoadError.parseError 0 6) :=
  ⟨by decide, by decide⟩

/-- C7 (amended): for every input file whose records each have at least six
fields and all of whose fields — including those beyond the sixth — parse
as numbers, `load` returns the same table as loading the file with every
record truncated to its first six fields: the values of extra fields never
affect the result, though an unparseable extra field still aborts the load. -/
theorem load_ignores_extra_fields (rows : List (List String))
    (h : ∀ row ∈ rows, validRow row) :
    load rows = load (rows.map (fun ro => ro.take 6)) := by
  have htr : ∀ row ∈ rows.map (fun ro => ro.take 6), validRow row := by
    intro row hrow
    obtain ⟨ro, hro, rfl⟩ := List.mem_map.mp hrow
    obtain ⟨hlen6, hall⟩ := h ro hro
    refine ⟨?_, fun v hv => hall v (List.take_subset 6 ro hv)⟩
    rw [List.length_take]
    exact le_min (le_refl 6) hlen6
  rw [load_ok_of_valid rows h, load_ok_of_valid _ htr]
  have hpt : ∀ (j : ℕ), j < 6 → ∀ ro ∈ rows,
      parsedAt ro j = parsedAt (ro.take 6) j := by
    intro j hj ro _
    unfold parsedAt
    rw [List.getD_eq_getElem?_getD, List.getD_eq_getElem?_getD,
      List.getElem?_take, if_pos hj]
  have hmap : ∀ (j : ℕ), j < 6 →
      rows.map (fun ro => parsedAt ro j) =
        (rows.map (fun ro => ro.take 6)).map (fun ro => parsedAt ro j) := by
    intro j hj
    rw [List.map_map]
    exact List.map_congr_left (fun ro hro => hpt j hj ro hro)
  unfold loadedTable
  rw [hmap 0 (by norm_num), hmap 1 (by norm_num), hmap 2 (by norm_num),
    hmap 3 (by norm_num), hmap 4 (by norm_num), hmap 5 (by norm_num)]

/-- Witness for the amended C7 on a record with a seventh numeric field. -/
theorem load_ignores_extra_fields_witness :
    (∀ row ∈ extraOkRows, validRow row) ∧
    load extraOkRows = load (extraOkRows.map (fun ro => ro.take 6)) :=
  ⟨by decide, load_ignores_extra_fields extraOkRows (by decide)⟩

set_option maxRecDepth 40000 in
/-- C10: the loader's numeric parsing accepts more than plain decimal
literals — a file whose tokens are "nan", " inf", "-inf", "1e3" (scientific
notation), " 2.5 " (whitespace-padded) and "7" loads successfully, appending
the corresponding values (including the non-finite ones) to the columns
instead of failing with a parse error. -/
theorem load_lenient_numeric_tokens :
    load nonFiniteRows = Except.ok
      { t := [PyFloat.nan], r := [PyFloat.inf], y := [PyFloat.negInf],
        u := [PyFloat.finite 1000], limit_under := [PyFloat.finite (5 / 2)],
        limit_upper := [PyFloat.finite 7] } := by with_unfolding_all decide

lemma render_ok (tbl : SampleTable) (t0 : PyFloat) (rest : List PyFloat)
    (hu : tbl.uniform) (ht : tbl.t = t0 :: rest) :
    render tbl = Except.ok
      { figsize := (10, 7), suptitle := "Spring-Mass-Damper System",
        suptitleFontSize := 20,
        ax1 :=
          { lines :=
              [{ xs := tbl.t, ys := tbl.r, color := "royalblue", linestyle := "--",
                 label := some "Set-point", stepMode := "pre" },
               { xs := tbl.t, ys := tbl.y, color := "limegreen", linestyle := "-",
                 label := some "Plant output", stepMode := "pre" }],
            xlim := (t0, (t0 :: rest).getLastD t0), xlabel := none,
            ylabel := some "Displacement [m]", tickLabelSize := 13,
            legendFontSize := 15, legendLoc := "upper left" },
        ax2 :=
          { lines :=
              [{ xs := tbl.t, ys := tbl.limit_upper, color := "red", linestyle := "--",
                 label := some "Limit", stepMode := "pre" },
               { xs := tbl.t, ys := tbl.limit_under, color := "red", linestyle := "--",
                 label := none, stepMode := "pre" },
               { xs := tbl.t, ys := tbl.u, color := "orange", linestyle := "-",
                 label := some "Control input", stepMode := "pre" }],
            xlim := (t0, (t0 :: rest).getLastD t0), xlabel := some "Time [s]",
            ylabel := some "Force [N]", tickLabelSize := 13,
            legendFontSize := 15, legendLoc := "upper left" } } := by
  obtain ⟨h1, h2, h3, h4, h5⟩ := hu
  simp [render, ht, h1, h2, h3, h4, h5]

lemma head_shape (l : List PyFloat) (t0 : PyFloat) (hh : l.head? = some t0) :
    ∃ rest, l = t0 :: rest := by
  cases htt : l with
  | nil => rw [htt] at hh; simp at hh
  | cons a tl =>
    rw [htt] at hh
    simp at hh
    exact ⟨tl, by rw [hh]⟩

/-- C3: on the zero-length Sample Table produced by an empty input file,
the render phase fails (the `IndexError` raised by `t[0]` in
`ax1.set_xlim`, the model's empty-dataset error) and produces no figure:
no axis bounds are computed and no chart is shown. -/
theorem render_empty_fails :
    load [] = Except.ok SampleTable.empty ∧
    render SampleTable.empty = Except.error RenderError.emptyDataset :=
  ⟨rfl, rfl⟩

/-- C8: for every well-formed Sample Table of length at least one, both
panels of the rendered figure have their x-axis range clamped exactly to
the pair (first time sample, last time sample). -/
theorem render_xlim_clamped (tbl : SampleTable) (t0 tl : PyFloat)
    (hu : tbl.uniform) (hh : tbl.t.head? = some t0)
    (hl : tbl.t.getLast? = some tl) :
    ∃ fig, render tbl = Except.ok fig ∧
      fig.ax1.xlim = (t0, tl) ∧ fig.ax2.xlim = (t0, tl) := by
  obtain ⟨rest, ht⟩ := head_shape tbl.t t0 hh
  have hlast : (t0 :: rest).getLastD t0 = tl := by
    rw [List.getLastD_eq_getLast?, ← ht, hl]
    rfl
  refine ⟨_, render_ok tbl t0 rest hu ht, ?_, ?_⟩ <;>
    · show (t0, (t0 :: rest).getLastD t0) = (t0, tl)
      rw [hlast]

/-- Witness for C8: on the spec's three-record scenario table with times
0, 1, 2, both panels are clamped to the range from 0 to 2. -/
theorem render_xlim_clamped_witness :
    (exTable.uniform ∧ exTable.t.head? = some (PyFloat.finite 0) ∧
      exTable.t.getLast? = some (PyFloat.finite 2)) ∧
    (∃ fig, render exTable = Except.ok fig ∧
      fig.ax1.xlim = (PyFloat.finite 0, PyFloat.finite 2) ∧
      fig.ax2.xlim = (PyFloat.finite 0, PyFloat.finite 2)) :=
  ⟨⟨by decide, by with_unfolding_all decide, by with_unfolding_all decide⟩,
    render_xlim_clamped exTable (PyFloat.finite 0) (PyFloat.finite 2)
      (by decide) (by with_unfolding_all decide) (by with_unfolding_all decide)⟩

/-- C9: in Panel B of every figure rendered from a well-formed non-empty
Sample Table, the two saturation-bound series are dashed step lines of the
same color, the upper-limit line carries the legend label "Limit", the
lower-limit line is unlabelled, and "Limit" therefore appears exactly once
in Panel B's legend. -/
theorem render_limit_legend_once (tbl : SampleTable) (t0 : PyFloat)
    (hu : tbl.uniform) (hh : tbl.t.head? = some t0) :
    ∃ fig, render tbl = Except.ok fig ∧
      fig.ax2.lines.length = 3 ∧
      (∃ l1 l2, fig.ax2.lines.get? 0 = some l1 ∧ fig.ax2.lines.get? 1 = some l2 ∧
        l1.ys = tbl.limit_upper ∧ l2.ys = tbl.limit_under ∧
        l1.linestyle = "--" ∧ l2.linestyle = "--" ∧ l1.color = l2.color ∧
        l1.stepMode = "pre" ∧ l2.stepMode = "pre" ∧
        l1.label = some "Limit" ∧ l2.label = none) ∧
      (legendEntries fig.ax2).count "Limit" = 1 := by
  obtain ⟨rest, ht⟩ := head_shape tbl.t t0 hh
  refine ⟨_, render_ok tbl t0 rest hu ht, rfl,
    ⟨_, _, rfl, rfl, rfl, rfl, rfl, rfl, rfl, rfl, rfl, rfl, rfl⟩, ?_⟩
  rfl

/-- Witness for C9 on the spec's three-record scenario table. -/
theorem render_limit_legend_once_witness :
    (exTable.uniform ∧ exTable.t.head? = some (PyFloat.finite 0)) ∧
    (∃ fig, render exTable = Except.ok fig ∧
      fig.ax2.lines.length = 3 ∧
      (∃ l1 l2, fig.ax2.lines.get? 0 = some l1 ∧ fig.ax2.lines.get? 1 = some l2 ∧
        l1.ys = exTable.limit_upper ∧ l2.ys = exTable.limit_under ∧
        l1.linestyle = "--" ∧ l2.linestyle = "--" ∧ l1.color = l2.color ∧
        l1.stepMode = "pre" ∧ l2.stepMode = "pre" ∧
        l1.label = some "Limit" ∧ l2.label = none) ∧
      (legendEntries fig.ax2).count "Limit" = 1) :=
  ⟨⟨by decide, by with_unfolding_all decide⟩,
    render_limit_legend_once exTable (PyFloat.finite 0) (by decide)
      (by with_unfolding_all decide)⟩

/-- Counterexample to C2 as stated: on the spec's scenario table (output 0
at time 0, output 0.5 at time 1), the rendered output curve sampled at
time 0.99 has value 0.5, not the claimed 0 — `Axes.step` defaults to
`where="pre"`, which holds a sample's value on the interval up to and
including its own time, so the jump from 0 to 0.5 happens just after
time 0, not at time 1. -/
theorem step_post_counterexample :
    ((render exTable).toOption.bind fun fig =>
        (fig.ax1.lines.get? 1).bind fun ln => lineValueAt ln (99 / 100)) =
      some (1 / 2) ∧
    some ((1 : ℚ) / 2) ≠ some (0 : ℚ) :=
  ⟨by with_unfolding_all decide, by with_unfolding_all decide⟩

/-- C2 (amended): the plotted step curve holds each sample's value constant
on the interval from just after the previous sample's time up to and
including that sample's own time (matplotlib's default pre-step mode), with
no interpolated intermediate values: for the scenario table, the rendered
output curve has value 0.5 at every time in (0, 1] — in particular at
time 0.99 — and value 0 at time 0. -/
theorem step_pre_semantics (x : ℚ) (h1 : 0 < x) (h2 : x ≤ 1) :
    ((render exTable).toOption.bind fun fig =>
        (fig.ax1.lines.get? 1).bind fun ln => lineValueAt ln x) = some (1 / 2) ∧
    ((render exTable).toOption.bind fun fig =>
        (fig.ax1.lines.get? 1).bind fun ln => lineValueAt ln 0) = some 0 := by
  constructor
  · have hred : ((render exTable).toOption.bind fun fig =>
        (fig.ax1.lines.get? 1).bind fun ln => lineValueAt ln x) =
        stepPreAt [0, 1, 2] [0, 1 / 2, 1] x := rfl
    rw [hred]
    simp only [stepPreAt, stepPreAtAux]
    rw [if_neg (by linarith), if_neg (by linarith), if_pos h2]
  · with_unfolding_all decide

/-- Witness for the amended C2 at time 0.99. -/
theorem step_pre_semantics_witness :
    (0 < (99 : ℚ) / 100 ∧ (99 : ℚ) / 100 ≤ 1) ∧
    (((render exTable).toOption.bind fun fig =>
        (fig.ax1.lines.get? 1).bind fun ln => lineValueAt ln ((99 : ℚ) / 100)) =
      some (1 / 2) ∧
      ((render exTable).toOption.bind fun fig =>
        (fig.ax1.lines.get? 1).bind fun ln => lineValueAt ln 0) = some 0) :=
  ⟨⟨by with_unfolding_all decide, by with_unfolding_all decide⟩,
    step_pre_semantics ((99 : ℚ) / 100) (by with_unfolding_all decide)
      (by with_unfolding_all decide)⟩
